import Mathlib

/-!
Verification of the Vagrant dynamic-inventory plugin (`vagrant.py`).

The Python source is shallowly embedded: the pure parsing helpers
(`get_machines`, `get_ssh_port`) become Lean functions on the list of
lines obtained from the subprocess output; the subprocess boundary
(running `vagrant status` / `vagrant port`) is modelled by a
`VagrantWorld` record supplying each command's output lines (or a
tool-invocation failure); Python dictionaries become association lists
with in-place update; raised Python exceptions become `Except` errors.
-/

set_option autoImplicit false

namespace Vagrant

/-! ## Python-level helpers -/

/-- Errors a run of the plugin can raise, modelling the Python exceptions:
`toolError` for a subprocess that cannot be invoked, `valueError` for
`int()` applied to a non-numeric string, `nameError` for the undefined
variable `path` in `fetch`, and `unboundLocal` for `results` being read
in `parse` without ever having been assigned. -/
inductive PyError where
  | toolError
  | valueError
  | nameError
  | unboundLocal
deriving DecidableEq, Repr

/-- Whitespace characters stripped by Python's `int()` (same set as
`str.strip()` for ASCII input). -/
def isPySpace (c : Char) : Bool :=
  c = ' ' || c = '\t' || c = '\n' || c = '\r' || c = '\u000B' || c = '\u000C'

/-- Digit accumulator for `pyInt`. -/
def digitsToNat (cs : List Char) : Nat :=
  cs.foldl (fun n c => 10 * n + (c.toNat - 48)) 0

/-- Model of Python's `int(s)` on text: surrounding whitespace is
stripped, an optional single sign is allowed, and then one or more
decimal digits are required; anything else raises `ValueError`, which
the caller sees as `none` here.  (Python 3's underscore digit grouping
is not modelled; no input in this development uses it.) -/
def pyInt (s : String) : Option Int :=
  let cs := ((s.toList.dropWhile isPySpace).reverse.dropWhile isPySpace).reverse
  let signed : Int × List Char :=
    match cs with
    | '-' :: rest => (-1, rest)
    | '+' :: rest => (1, rest)
    | _ => (1, cs)
  if signed.2 ≠ [] && signed.2.all Char.isDigit then
    some (signed.1 * Int.ofNat (digitsToNat signed.2))
  else none

/-- Model of Python's `line.split(",")`: split at every comma, keeping
empty fields (so the result is always non-empty). -/
def splitCommasAux : List Char → List Char → List String
  | [], acc => [String.mk acc.reverse]
  | c :: cs, acc =>
    if c = ',' then String.mk acc.reverse :: splitCommasAux cs [] else splitCommasAux cs (c :: acc)

/-- `splitCommas line` is Python's `line.split(",")`. -/
def splitCommas (line : String) : List String :=
  splitCommasAux line.toList []

/-! ## Status/Port Parser (`get_machines`, `get_ssh_port`)

Both source functions run a subprocess and split its captured output
into lines; the pure parsing part, which is what the spec's parser
claims quantify over, is embedded here as a function of the line list.
The subprocess invocation and the line split are modelled at the
`VagrantWorld` boundary below. -/

/-- Guard of the `get_machines` loop: the line has at least 3
comma-separated fields and field 3 (index 2) is the token `state`. -/
def stateLine (line : String) : Bool :=
  let parts := splitCommas line
  3 ≤ parts.length && parts.getD 2 "" == "state"

/-- Embedding of `get_machines` (parsing part): walk the lines in order,
appending field 2 (index 1) of every `state` line. -/
def get_machines (lines : List String) : List String :=
  lines.foldl
    (fun machines line =>
      if stateLine line then machines ++ [(splitCommas line).getD 1 ""] else machines)
    []

/-- Guard of the `get_ssh_port` loop: at least 5 fields, field 3 is
`forwarded_port`, and field 4 equals `str(guest_port)` — a *string*
comparison against the decimal rendering of the requested port, exactly
as in the source (`parts[3] == str(guest_port)`). -/
def portLine (guest_port : Int) (line : String) : Bool :=
  let parts := splitCommas line
  5 ≤ parts.length && parts.getD 2 "" == "forwarded_port" && parts.getD 3 "" == toString guest_port

/-- Embedding of `get_ssh_port` (parsing part): return `int(parts[4])`
of the first matching line (raising `ValueError` if field 5 is not a
valid integer literal), or `none` when no line matches. -/
def get_ssh_port : List String → Int → Except PyError (Option Int)
  | [], _ => .ok none
  | line :: rest, guest_port =>
    if portLine guest_port line then
      match pyInt ((splitCommas line).getD 4 "") with
      | some v => .ok (some v)
      | none => .error .valueError
    else get_ssh_port rest guest_port

/-! ## Python dictionaries as association lists -/

/-- Python `d[k] = v`: update in place if the key is present (keeping its
position, as Python dicts do), otherwise append at the end. -/
def ainsert {β : Type} : List (String × β) → String → β → List (String × β)
  | [], k, v => [(k, v)]
  | (k', v') :: rest, k, v =>
    if k' = k then (k, v) :: rest else (k', v') :: ainsert rest k v

/-- Python `d[k]` / `k in d` combined: the value at `k`, if present. -/
def alookup {β : Type} : List (String × β) → String → Option β
  | [], _ => none
  | (k', v') :: rest, k => if k' = k then some v' else alookup rest k

/-- An Inventory Snapshot: Python's `results` dict, mapping each guest
identifier to its record `{}` or `{'ssh_port': p}` — the record is
`none` when the `ssh_port` field is absent and `some p` when present. -/
abbrev Snapshot := List (String × Option Int)

/-! ## The subprocess boundary -/

/-- Behaviour of the external `vagrant` tool during one fetch:
`statusLines` is the output of `vagrant status --machine-readable`
split into lines, and `portLines m` the output of
`vagrant port m --machine-readable`; `.error ()` means the subprocess
invocation itself fails (tool missing, not executable, ...). -/
structure VagrantWorld where
  statusLines : Except Unit (List String)
  portLines : String → Except Unit (List String)

/-! ## Inventory Builder: `fetch` -/

/-- The source's `if ssh_port: results[machine]['ssh_port'] = ssh_port`:
the port is recorded only when Python's `if ssh_port:` is truthy,
i.e. the value is neither `None` nor `0`. -/
def truthyUpdate (results : Snapshot) (machine : String) (ssh_port : Option Int) : Snapshot :=
  match ssh_port with
  | some p => if p ≠ 0 then ainsert results machine (some p) else results
  | none => results

/-- The per-guest loop of `InventoryModule.fetch`: for each machine,
first `results[machine] = {}`, then run `vagrant port` and parse it with
`get_ssh_port`, then the truthiness-guarded record of the port.  The
`Nat` component counts subprocess invocations so far. -/
def fetchLoop (w : VagrantWorld) (guest_ssh_port : Int) :
    List String → Snapshot → Nat → Except PyError (Snapshot × Nat)
  | [], results, calls => .ok (results, calls)
  | machine :: rest, results, calls =>
    let results := ainsert results machine none
    match w.portLines machine with
    | .error _ => .error .toolError
    | .ok plines =>
      match get_ssh_port plines guest_ssh_port with
      | .error e => .error e
      | .ok ssh_port =>
        fetchLoop w guest_ssh_port rest (truthyUpdate results machine ssh_port) (calls + 1)

/-- Embedding of `InventoryModule.fetch`.  `isAbs` is
`os.path.isabs(project_path)`.  In the relative branch the source reads
the variable `path`, which is not defined anywhere in `fetch`'s scope
(it is a parameter of `parse`, not passed along), so Python raises
`NameError` before any subprocess runs.  In the absolute branch the
`os.chdir` side effect has no bearing on the parsed results and is not
modelled.  On success the returned `Nat` is the number of subprocess
invocations (one `vagrant status` plus one `vagrant port` per machine). -/
def fetch (isAbs : Bool) (w : VagrantWorld) (guest_ssh_port : Int) :
    Except PyError (Snapshot × Nat) :=
  if isAbs then
    match w.statusLines with
    | .error _ => .error .toolError
    | .ok lines => fetchLoop w guest_ssh_port (get_machines lines) [] 1
  else .error .nameError

/-! ## The inventory sink and `populate` -/

/-- A variable value written into the sink (`127.0.0.1`, `vagrant`, or a
port number). -/
inductive VarVal where
  | str (s : String)
  | int (i : Int)
deriving DecidableEq, Repr

/-- Idempotent add used by the sink's `add_group` / `add_host`:
appending only when absent. -/
def addIfAbsent {α : Type} [DecidableEq α] (xs : List α) (x : α) : List α :=
  if x ∈ xs then xs else xs ++ [x]

/-- The sink's `set_variable`: overwrite in place if the (entity, key)
pair is present, otherwise append. -/
def setVarList : List (String × String × VarVal) → String → String → VarVal →
    List (String × String × VarVal)
  | [], e, k, v => [(e, k, v)]
  | (e', k', v') :: rest, e, k, v =>
    if e' = e ∧ k' = k then (e, k, v) :: rest else (e', k', v') :: setVarList rest e k v

/-- Current value of a variable on an entity in the sink. -/
def lookupVarList : List (String × String × VarVal) → String → String → Option VarVal
  | [], _, _ => none
  | (e', k', v') :: rest, e, k => if e' = e ∧ k' = k then some v' else lookupVarList rest e k

/-- The host framework's inventory sink, reduced to what the plugin
writes: the set of groups, the host-to-group memberships, and the
variables set on entities (groups and hosts share one name space in the
sink's `set_variable`). -/
structure Sink where
  groups : List String
  hosts : List (String × String)
  vars : List (String × String × VarVal)
deriving DecidableEq, Repr

/-- A sink with nothing in it. -/
def emptySink : Sink := ⟨[], [], []⟩

/-- `inventory.add_group g` (returns `g`, modelled by using `g` below). -/
def addGroup (s : Sink) (g : String) : Sink :=
  { s with groups := addIfAbsent s.groups g }

/-- `inventory.add_host h, g`: record the membership of `h` in `g`. -/
def addHost (s : Sink) (h g : String) : Sink :=
  { s with hosts := addIfAbsent s.hosts (h, g) }

/-- `inventory.set_variable e, k, v`. -/
def setVariable (s : Sink) (e k : String) (v : VarVal) : Sink :=
  { s with vars := setVarList s.vars e k v }

/-- Current value of variable `k` on entity `e` in sink `s`. -/
def lookupVar (s : Sink) (e k : String) : Option VarVal :=
  lookupVarList s.vars e k

/-- Body of the `populate` loop for one snapshot entry: always add the
machine to `vagrant_machines`; if its record has an `ssh_port` field,
add it to `running` and set `ansible_port`; otherwise add it to
`not_running`. -/
def populateStep (s : Sink) (entry : String × Option Int) : Sink :=
  let s := addHost s entry.1 "vagrant_machines"
  match entry.2 with
  | some p => setVariable (addHost s entry.1 "running") entry.1 "ansible_port" (.int p)
  | none => addHost s entry.1 "not_running"

/-- Embedding of `InventoryModule.populate`: create the three groups,
set the connection defaults on `vagrant_machines`, then run the loop
over the snapshot's entries. -/
def populate (s : Sink) (results : Snapshot) : Sink :=
  let s := addGroup s "vagrant_machines"
  let s := setVariable s "vagrant_machines" "ansible_host" (.str "127.0.0.1")
  let s := setVariable s "vagrant_machines" "ansible_user" (.str "vagrant")
  let s := addGroup s "not_running"
  let s := addGroup s "running"
  results.foldl populateStep s

/-! ## Inventory Builder: `parse` -/

/-- Observable outcome of a successful `parse`: the populated sink, the
cache store afterwards, and how many subprocess invocations occurred. -/
structure ParseOut where
  sink : Sink
  store : List (String × Snapshot)
  subprocCalls : Nat
deriving DecidableEq, Repr

/-- Embedding of `InventoryModule.parse`.  `user_cache_setting` is the
user's `cache` option, `cache_flag` the `cache` argument (false when the
caller forces a refresh), `store` the cache store's current contents and
`key` the computed cache key.  The control flow mirrors the source:
`attempt_to_read_cache = user_cache_setting and cache`,
`cache_needs_update = user_cache_setting and not cache`, a `KeyError` on
the cache read turns `cache_needs_update` on, a fetch (when it happens)
writes its result back under `key`, and `populate(results)` runs last —
reading `results` without any prior assignment raises
`UnboundLocalError`. -/
def parse (user_cache_setting cache_flag : Bool) (store : List (String × Snapshot))
    (key : String) (isAbs : Bool) (w : VagrantWorld) (guest_ssh_port : Int) (sink0 : Sink) :
    Except PyError ParseOut :=
  let attempt_to_read_cache := user_cache_setting && cache_flag
  let cache_needs_update := user_cache_setting && !cache_flag
  let cached : Option Snapshot :=
    if attempt_to_read_cache then alookup store key else none
  let cache_needs_update :=
    if attempt_to_read_cache && (alookup store key).isNone then true else cache_needs_update
  if cache_needs_update then
    match fetch isAbs w guest_ssh_port with
    | .error e => .error e
    | .ok (results, calls) =>
      .ok ⟨populate sink0 results, ainsert store key results, calls⟩
  else
    match cached with
    | some results => .ok ⟨populate sink0 results, store, 0⟩
    | none => .error .unboundLocal

/-- A concrete tool behaviour used by the closed witness statements: one
guest `default` in state `running`, with guest port 22 forwarded to
2222. -/
def demoWorld : VagrantWorld where
  statusLines := .ok ["1,default,state,running"]
  portLines := fun _ => .ok ["1,default,forwarded_port,22,2222"]

/-- A tool behaviour whose single guest has its configured port
forwarded to external port `0`. -/
def zeroPortWorld : VagrantWorld where
  statusLines := .ok ["1,default,state,running"]
  portLines := fun _ => .ok ["1,default,forwarded_port,22,0"]

/-- The record `fetch` stores for a guest, as a function of what
`get_ssh_port` returned for it: the port is kept only when it is
present and nonzero (Python's `if ssh_port:`). -/
def recordOf : Option Int → Option Int
  | some p => if p = 0 then none else some p
  | none => none

/-! ## Association-list lemmas -/

theorem alookup_ainsert_self {β : Type} (l : List (String × β)) (k : String) (v : β) :
    alookup (ainsert l k v) k = some v := by
  induction l with
  | nil => simp [ainsert, alookup]
  | cons hd tl ih =>
    obtain ⟨k', v'⟩ := hd
    by_cases h : k' = k <;> simp [ainsert, alookup, h, ih]

theorem alookup_ainsert_ne {β : Type} (l : List (String × β)) (k k' : String) (v : β)
    (h : k ≠ k') : alookup (ainsert l k v) k' = alookup l k' := by
  induction l with
  | nil => simp [ainsert, alookup, h]
  | cons hd tl ih =>
    obtain ⟨k₀, v₀⟩ := hd
    by_cases h0 : k₀ = k
    · subst h0; simp [ainsert, alookup, h]
    · simp [ainsert, alookup, h0, ih]

/-! ## Sink-operation lemmas -/

theorem mem_addIfAbsent {α : Type} [DecidableEq α] (xs : List α) (x a : α) :
    a ∈ addIfAbsent xs x ↔ a ∈ xs ∨ a = x := by
  by_cases h : x ∈ xs
  · simp only [addIfAbsent, if_pos h]
    constructor
    · exact Or.inl
    · rintro (ha | rfl) <;> assumption
  · simp [addIfAbsent, if_neg h]

theorem addIfAbsent_of_mem {α : Type} [DecidableEq α] (xs : List α) (x : α) (h : x ∈ xs) :
    addIfAbsent xs x = xs := by
  simp [addIfAbsent, h]

theorem lookup_setVarList_self (l : List (String × String × VarVal)) (e k : String) (v : VarVal) :
    lookupVarList (setVarList l e k v) e k = some v := by
  induction l with
  | nil => simp [setVarList, lookupVarList]
  | cons hd tl ih =>
    obtain ⟨e', k', v'⟩ := hd
    by_cases h : e' = e ∧ k' = k <;> simp [setVarList, lookupVarList, h, ih]

theorem lookup_setVarList_ne (l : List (String × String × VarVal)) (e k e' k' : String)
    (v : VarVal) (h : ¬(e = e' ∧ k = k')) :
    lookupVarList (setVarList l e k v) e' k' = lookupVarList l e' k' := by
  induction l with
  | nil => simp [setVarList, lookupVarList, h]
  | cons hd tl ih =>
    obtain ⟨e₀, k₀, v₀⟩ := hd
    by_cases h0 : e₀ = e ∧ k₀ = k
    · obtain ⟨rfl, rfl⟩ := h0
      simp [setVarList, lookupVarList, h]
    · simp [setVarList, lookupVarList, h0, ih]

theorem setVarList_of_lookup (l : List (String × String × VarVal)) (e k : String) (v : VarVal)
    (h : lookupVarList l e k = some v) : setVarList l e k v = l := by
  induction l with
  | nil => simp [lookupVarList] at h
  | cons hd tl ih =>
    obtain ⟨e₀, k₀, v₀⟩ := hd
    by_cases h0 : e₀ = e ∧ k₀ = k
    · obtain ⟨rfl, rfl⟩ := h0
      simp [lookupVarList] at h
      simp [setVarList, h]
    · simp only [lookupVarList, if_neg h0] at h
      simp [setVarList, h0, ih h]

/-- In a list of pairs with pairwise-distinct keys, the key determines
the value. -/
theorem nodup_keys_val_unique {β : Type} (r : List (String × β))
    (hnd : (r.map Prod.fst).Nodup) (m : String) (a b : β)
    (ha : (m, a) ∈ r) (hb : (m, b) ∈ r) : a = b := by
  induction r with
  | nil => simp at ha
  | cons hd tl ih =>
    simp only [List.map_cons, List.nodup_cons] at hnd
    rcases List.mem_cons.mp ha with rfl | ha'
    · rcases List.mem_cons.mp hb with hb0 | hb'
      · exact (congrArg Prod.snd hb0).symm
      · exact absurd (List.mem_map.mpr ⟨(m, b), hb', rfl⟩) hnd.1
    · rcases List.mem_cons.mp hb with rfl | hb'
      · exact absurd (List.mem_map.mpr ⟨(m, a), ha', rfl⟩) hnd.1
      · exact ih hnd.2 ha' hb'

/-! ## `populate` characterization lemmas -/

theorem populateStep_groups (s : Sink) (e : String × Option Int) :
    (populateStep s e).groups = s.groups := by
  obtain ⟨m, v⟩ := e
  cases v <;> simp [populateStep, addHost, setVariable]

theorem foldl_populateStep_groups (r : Snapshot) (s : Sink) :
    (r.foldl populateStep s).groups = s.groups := by
  induction r generalizing s with
  | nil => rfl
  | cons e tl ih => rw [List.foldl_cons, ih, populateStep_groups]

/-- Which host-to-group memberships the `populate` loop creates. -/
theorem mem_hosts_populateStep (s : Sink) (e : String × Option Int) (pr : String × String) :
    pr ∈ (populateStep s e).hosts ↔
      pr ∈ s.hosts ∨ pr = (e.1, "vagrant_machines")
        ∨ (e.2 ≠ none ∧ pr = (e.1, "running")) ∨ (e.2 = none ∧ pr = (e.1, "not_running")) := by
  obtain ⟨m, v⟩ := e
  cases v <;>
    simp [populateStep, addHost, setVariable, mem_addIfAbsent] <;>
    tauto

theorem mem_hosts_foldl (r : Snapshot) (s : Sink) (pr : String × String) :
    pr ∈ (r.foldl populateStep s).hosts ↔
      pr ∈ s.hosts ∨ ∃ e ∈ r, pr = (e.1, "vagrant_machines")
        ∨ (e.2 ≠ none ∧ pr = (e.1, "running")) ∨ (e.2 = none ∧ pr = (e.1, "not_running")) := by
  induction r generalizing s with
  | nil => simp
  | cons e tl ih =>
    rw [List.foldl_cons, ih, mem_hosts_populateStep]
    constructor
    · rintro ((h | h) | ⟨e', he', h⟩)
      · exact Or.inl h
      · exact Or.inr ⟨e, List.mem_cons_self e tl, h⟩
      · exact Or.inr ⟨e', List.mem_cons_of_mem e he', h⟩
    · rintro (h | ⟨e', he', h⟩)
      · exact Or.inl (Or.inl h)
      · rcases List.mem_cons.mp he' with rfl | he''
        · exact Or.inl (Or.inr h)
        · exact Or.inr ⟨e', he'', h⟩

/-- Membership in the hosts of a populated sink. -/
theorem mem_hosts_populate (s : Sink) (r : Snapshot) (pr : String × String) :
    pr ∈ (populate s r).hosts ↔
      pr ∈ s.hosts ∨ ∃ e ∈ r, pr = (e.1, "vagrant_machines")
        ∨ (e.2 ≠ none ∧ pr = (e.1, "running")) ∨ (e.2 = none ∧ pr = (e.1, "not_running")) := by
  simp only [populate]
  rw [mem_hosts_foldl]
  simp [addGroup, setVariable]

/-- Steps of the `populate` loop only write the `ansible_port` variable:
every other variable lookup passes through unchanged. -/
theorem lookupVar_foldl_of_ne_port (r : Snapshot) (s : Sink) (e k : String)
    (h : k ≠ "ansible_port") :
    lookupVarList (r.foldl populateStep s).vars e k = lookupVarList s.vars e k := by
  induction r generalizing s with
  | nil => rfl
  | cons hd tl ih =>
    obtain ⟨m, v⟩ := hd
    rw [List.foldl_cons, ih]
    cases v with
    | none => simp [populateStep, addHost]
    | some p =>
      simp only [populateStep, addHost, setVariable]
      exact lookup_setVarList_ne _ _ _ _ _ _ (fun hc => h hc.2.symm)

/-- Steps of the `populate` loop for machines other than `m` do not
touch `m`'s variables. -/
theorem lookupVar_foldl_of_not_key (r : Snapshot) (s : Sink) (m k : String)
    (h : ∀ e ∈ r, e.1 ≠ m) :
    lookupVarList (r.foldl populateStep s).vars m k = lookupVarList s.vars m k := by
  induction r generalizing s with
  | nil => rfl
  | cons hd tl ih =>
    obtain ⟨m', v⟩ := hd
    rw [List.foldl_cons, ih _ (fun e he => h e (List.mem_cons_of_mem _ he))]
    cases v with
    | none => simp [populateStep, addHost]
    | some p =>
      simp only [populateStep, addHost, setVariable]
      refine lookup_setVarList_ne _ _ _ _ _ _ (fun hc => ?_)
      exact h (m', some p) (List.mem_cons_self _ _) hc.1

/-- After the `populate` loop, a machine whose record carries a port has
its `ansible_port` variable set to exactly that port (snapshot keys
assumed distinct, as they are for any Python dict). -/
theorem lookupVar_foldl_port (r : Snapshot) (s : Sink) (m : String) (p : Int)
    (hnd : (r.map Prod.fst).Nodup) (hm : (m, some p) ∈ r) :
    lookupVarList (r.foldl populateStep s).vars m "ansible_port" = some (.int p) := by
  induction r generalizing s with
  | nil => simp at hm
  | cons hd tl ih =>
    simp only [List.map_cons, List.nodup_cons] at hnd
    rcases List.mem_cons.mp hm with rfl | hm'
    · rw [List.foldl_cons]
      have hnotl : ∀ e ∈ tl, e.1 ≠ m := by
        intro e he hc
        exact hnd.1 (List.mem_map.mpr ⟨e, he, hc⟩)
      rw [lookupVar_foldl_of_not_key _ _ _ _ hnotl]
      simp only [populateStep, addHost, setVariable]
      exact lookup_setVarList_self _ _ _ _
    · rw [List.foldl_cons]
      exact ih _ hnd.2 hm'

/-- A fold whose step fixes the state pointwise fixes the whole fold. -/
theorem foldl_populateStep_fixed (r : Snapshot) (s : Sink)
    (h : ∀ e ∈ r, populateStep s e = s) : r.foldl populateStep s = s := by
  induction r with
  | nil => rfl
  | cons e tl ih =>
    rw [List.foldl_cons, h e (List.mem_cons_self e tl)]
    exact ih (fun e' he' => h e' (List.mem_cons_of_mem _ he'))

/-! ## `fetchLoop` characterization lemmas -/

theorem alookup_truthyUpdate_self (acc : Snapshot) (m : String) (sp : Option Int) :
    alookup (truthyUpdate (ainsert acc m none) m sp) m = some (recordOf sp) := by
  cases sp with
  | none => simp [truthyUpdate, recordOf, alookup_ainsert_self]
  | some p =>
    by_cases hp : p = 0
    · subst hp
      rw [truthyUpdate, if_neg (by simp)]
      simp [recordOf, alookup_ainsert_self]
    · rw [truthyUpdate, if_pos hp]
      simp [recordOf, hp, alookup_ainsert_self]

theorem alookup_truthyUpdate_ne (acc : Snapshot) (m m' : String) (sp : Option Int)
    (h : m' ≠ m) : alookup (truthyUpdate acc m' sp) m = alookup acc m := by
  cases sp with
  | none => rfl
  | some p =>
    by_cases hp : p = 0
    · subst hp
      rw [truthyUpdate, if_neg (by simp)]
    · rw [truthyUpdate, if_pos hp, alookup_ainsert_ne _ _ _ _ h]

theorem fetchLoop_lookup_of_not_mem (w : VagrantWorld) (gp : Int) (ms : List String)
    (acc : Snapshot) (n : Nat) (S : Snapshot) (n' : Nat) (m : String)
    (hok : fetchLoop w gp ms acc n = .ok (S, n')) (hm : m ∉ ms) :
    alookup S m = alookup acc m := by
  induction ms generalizing acc n with
  | nil =>
    simp only [fetchLoop] at hok
    cases hok
    rfl
  | cons m' rest ih =>
    have hne : m' ≠ m := fun hc => hm (hc ▸ List.mem_cons_self m' rest)
    have hrest : m ∉ rest := fun hc => hm (List.mem_cons_of_mem _ hc)
    cases hpl : w.portLines m' with
    | error u =>
      simp only [fetchLoop, hpl] at hok
      exact absurd hok (by simp)
    | ok plines =>
      cases hsp : get_ssh_port plines gp with
      | error e =>
        simp only [fetchLoop, hpl, hsp] at hok
        exact absurd hok (by simp)
      | ok sp =>
        simp only [fetchLoop, hpl, hsp] at hok
        rw [ih _ _ hok hrest, alookup_truthyUpdate_ne _ _ _ _ hne,
          alookup_ainsert_ne _ _ _ _ hne]

/-- Every machine processed by the loop ends with exactly the record
`recordOf sp`, where `sp` is what `get_ssh_port` returned for it. -/
theorem fetchLoop_lookup_of_mem (w : VagrantWorld) (gp : Int) (ms : List String)
    (acc : Snapshot) (n : Nat) (S : Snapshot) (n' : Nat) (m : String)
    (hok : fetchLoop w gp ms acc n = .ok (S, n')) (hm : m ∈ ms) :
    ∃ plines sp, w.portLines m = .ok plines ∧ get_ssh_port plines gp = .ok sp
      ∧ alookup S m = some (recordOf sp) := by
  induction ms generalizing acc n with
  | nil => simp at hm
  | cons m' rest ih =>
    cases hpl : w.portLines m' with
    | error u =>
      simp only [fetchLoop, hpl] at hok
      exact absurd hok (by simp)
    | ok plines =>
      cases hsp : get_ssh_port plines gp with
      | error e =>
        simp only [fetchLoop, hpl, hsp] at hok
        exact absurd hok (by simp)
      | ok sp =>
        simp only [fetchLoop, hpl, hsp] at hok
        by_cases hmem : m ∈ rest
        · exact ih _ _ hok hmem
        · have heq : m' = m := by
            rcases List.mem_cons.mp hm with rfl | h
            · rfl
            · exact absurd h hmem
          subst heq
          refine ⟨plines, sp, hpl, hsp, ?_⟩
          rw [fetchLoop_lookup_of_not_mem _ _ _ _ _ _ _ _ hok hmem,
            alookup_truthyUpdate_self]

/-- A filtered-append loop, started from any accumulator, is the
filter-then-map of the input. -/
theorem foldl_filter_append {α β : Type} (p : α → Bool) (f : α → β) (lines : List α)
    (acc : List β) :
    lines.foldl (fun acc' x => if p x then acc' ++ [f x] else acc') acc
      = acc ++ (lines.filter p).map f := by
  induction lines generalizing acc with
  | nil => simp
  | cons l ls ih =>
    by_cases h : p l <;> simp [List.filter_cons, h, ih]

/-- On a successful fetch, every machine reported by the discovery step
has an entry in the resulting snapshot. -/
theorem fetch_covers (isAbs : Bool) (w : VagrantWorld) (gp : Int) (S : Snapshot) (n : Nat)
    (hf : fetch isAbs w gp = .ok (S, n)) (lines : List String)
    (hlines : w.statusLines = .ok lines) (m : String) (hm : m ∈ get_machines lines) :
    (alookup S m).isSome = true := by
  have hloop : fetchLoop w gp (get_machines lines) [] 1 = .ok (S, n) := by
    cases isAbs
    · simp [fetch] at hf
    · simpa [fetch, hlines] using hf
  obtain ⟨_, _, _, _, hlook⟩ := fetchLoop_lookup_of_mem _ _ _ _ _ _ _ _ hloop hm
  simp [hlook]

/-! ## Claim theorems -/

/-- Claim C1 (code bug): when the user's caching option is disabled,
`parse` never assigns `results` (neither the cache-read branch nor the
fetch branch runs, since `cache_needs_update = user_cache_setting and
not cache` is false), so `self.populate(results)` raises
`UnboundLocalError` instead of performing the fresh fetch the spec
requires. -/
theorem parse_cache_disabled_crashes (cf : Bool) (store : List (String × Snapshot))
    (key : String) (isAbs : Bool) (w : VagrantWorld) (gp : Int) (sink0 : Sink) :
    parse false cf store key isAbs w gp sink0 = .error .unboundLocal := by
  simp [parse]

/-- Claim C2 counterexample: the line `1,default,forwarded_port,022,2222`
has 5 fields, field 3 `forwarded_port`, and a field 4 that parses to the
requested internal port 22, so the claim says `resolve_port` returns
2222; but the source compares field 4 as a *string* with `str(22)`, and
`"022" ≠ "22"`, so the result is absent. -/
theorem get_ssh_port_numeric_match_refuted :
    get_ssh_port ["1,default,forwarded_port,022,2222"] 22 = .ok none
    ∧ pyInt ((splitCommas "1,default,forwarded_port,022,2222").getD 3 "") = some 22
    ∧ (splitCommas "1,default,forwarded_port,022,2222").getD 2 "" = "forwarded_port"
    ∧ 5 ≤ (splitCommas "1,default,forwarded_port,022,2222").length :=
  ⟨rfl, rfl, rfl, by decide⟩

/-- Claim C2 (amended): `resolve_port` returns the integer from field 5
of the first line that has at least 5 fields, whose field 3 is
`forwarded_port`, and whose field 4 is *string-equal to the decimal
rendering* of the requested internal port; if no such line exists the
result is absent and no error is raised. -/
theorem get_ssh_port_first_match (lines : List String) (gp : Int) :
    (lines.find? (portLine gp) = none → get_ssh_port lines gp = .ok none)
    ∧ (∀ line p, lines.find? (portLine gp) = some line →
        pyInt ((splitCommas line).getD 4 "") = some p →
        get_ssh_port lines gp = .ok (some p)) := by
  induction lines with
  | nil =>
    refine ⟨fun _ => rfl, fun line p h => ?_⟩
    simp [List.find?] at h
  | cons l ls ih =>
    by_cases h : portLine gp l
    · refine ⟨fun hf => ?_, fun line p hf hp => ?_⟩
      · rw [List.find?_cons_of_pos _ h] at hf
        exact absurd hf (by simp)
      · rw [List.find?_cons_of_pos _ h] at hf
        injection hf with hf
        subst hf
        simp only [get_ssh_port]
        rw [if_pos h, hp]
    · refine ⟨fun hf => ?_, fun line p hf hp => ?_⟩
      · rw [List.find?_cons_of_neg _ h] at hf
        simpa [get_ssh_port, h] using ih.1 hf
      · rw [List.find?_cons_of_neg _ h] at hf
        simpa [get_ssh_port, h] using ih.2 line p hf hp

/-- Witness for C2's amended theorem at a concrete port mapping. -/
theorem get_ssh_port_first_match_witness :
    get_ssh_port ["1,default,forwarded_port,22,2222"] 22 = .ok (some 2222) :=
  (get_ssh_port_first_match ["1,default,forwarded_port,22,2222"] 22).2
    "1,default,forwarded_port,22,2222" 2222 rfl rfl

/-- Claim C3: `list_guests` returns, in line order, exactly the 2nd
field of each line having at least 3 fields with field 3 `state`
(duplicates preserved), and hence exactly as many identifiers as there
are such lines. -/
theorem get_machines_line_order (lines : List String) :
    get_machines lines
        = (lines.filter stateLine).map (fun line => (splitCommas line).getD 1 "")
      ∧ (get_machines lines).length = (lines.filter stateLine).length := by
  have h : get_machines lines
      = (lines.filter stateLine).map (fun line => (splitCommas line).getD 1 "") := by
    have h0 := foldl_filter_append stateLine
      (fun line => (splitCommas line).getD 1 "") lines []
    rw [List.nil_append] at h0
    exact h0
  exact ⟨h, by rw [h, List.length_map]⟩

/-- Claim C4 (code bug): when `project_path` is relative, the source
computes `os.path.join(os.path.dirname(path), project_path_in)`, but no
variable `path` exists in `fetch`'s scope, so Python raises `NameError`
instead of resolving the path against the configuration file's directory
and proceeding. -/
theorem fetch_relative_path_raises (w : VagrantWorld) (gp : Int) :
    fetch false w gp = .error .nameError := rfl

/-- Claim C10: a port-mapping output whose first matching line has a
non-numeric field 5 makes `resolve_port` raise (`int(parts[4])` is
unguarded) rather than return an absent result. -/
theorem get_ssh_port_bad_field5 :
    get_ssh_port ["1,default,forwarded_port,22,oops"] 22 = .error .valueError
    ∧ portLine 22 "1,default,forwarded_port,22,oops" = true :=
  ⟨rfl, rfl⟩

/-- Claim C5 counterexample: for the guest `default` a forwarded-port
line for the configured internal port 22 *is* found (`resolve_port`
returns port 0), yet the snapshot built by `fetch` gives `default` an
empty record: Python's `if ssh_port:` treats 0 as false, so a found
port value of 0 is not recorded, refuting the "including 0" claim. -/
theorem fetch_zero_port_not_recorded :
    fetch true zeroPortWorld 22 = .ok ([("default", none)], 2)
    ∧ get_ssh_port ["1,default,forwarded_port,22,0"] 22 = .ok (some 0) :=
  ⟨rfl, rfl⟩

/-- Claim C5 (amended): in a snapshot built by a fresh fetch, a guest's
record has the `ssh_port` field present if and only if `resolve_port`
found a forwarded-port line for the configured internal port for that
guest *and* the found value is nonzero; a found port of 0 (like an
absent one) leaves the field out. -/
theorem fetch_port_presence (isAbs : Bool) (w : VagrantWorld) (gp : Int)
    (S : Snapshot) (n : Nat) (lines : List String) (m : String)
    (hok : fetch isAbs w gp = .ok (S, n)) (hlines : w.statusLines = .ok lines)
    (hm : m ∈ get_machines lines) :
    ∃ plines sp, w.portLines m = .ok plines ∧ get_ssh_port plines gp = .ok sp
      ∧ alookup S m = some (recordOf sp)
      ∧ ((recordOf sp).isSome ↔ ∃ p, sp = some p ∧ p ≠ 0) := by
  have hloop : fetchLoop w gp (get_machines lines) [] 1 = .ok (S, n) := by
    cases isAbs
    · simp [fetch] at hok
    · simpa [fetch, hlines] using hok
  obtain ⟨plines, sp, hpl, hsp, hlook⟩ := fetchLoop_lookup_of_mem _ _ _ _ _ _ _ _ hloop hm
  refine ⟨plines, sp, hpl, hsp, hlook, ?_⟩
  cases sp with
  | none => simp [recordOf]
  | some p =>
    by_cases hp : p = 0
    · subst hp
      simp [recordOf]
    · simp [recordOf, hp]

/-- Witness for C5's amended theorem on the demo world. -/
theorem fetch_port_presence_witness :
    ∃ plines sp, demoWorld.portLines "default" = .ok plines
      ∧ get_ssh_port plines 22 = .ok sp
      ∧ alookup [("default", some 2222)] "default" = some (recordOf sp)
      ∧ ((recordOf sp).isSome ↔ ∃ p, sp = some p ∧ p ≠ 0) :=
  fetch_port_presence true demoWorld 22 [("default", some 2222)] 2
    ["1,default,state,running"] "default" rfl rfl (by decide)

/-- Claim C6: when caching is enabled, no refresh is forced, and the
store has a snapshot under the key, `parse` populates from exactly the
stored snapshot, leaves the store unchanged, and triggers zero
subprocess invocations; moreover a snapshot written under a key is what
a lookup of that key returns (cache round-trip). -/
theorem parse_cache_read (store : List (String × Snapshot)) (key : String) (S : Snapshot)
    (isAbs : Bool) (w : VagrantWorld) (gp : Int) (sink0 : Sink)
    (hhit : alookup store key = some S) :
    parse true true store key isAbs w gp sink0 = .ok ⟨populate sink0 S, store, 0⟩
    ∧ alookup (ainsert store key S) key = some S := by
  refine ⟨?_, alookup_ainsert_self _ _ _⟩
  simp [parse, hhit]

/-- Witness for C6 on a store that already holds a snapshot. -/
theorem parse_cache_read_witness :
    parse true true [("k", [("default", some 2222)])] "k" true demoWorld 22 emptySink
        = .ok ⟨populate emptySink [("default", some 2222)],
            [("k", [("default", some 2222)])], 0⟩
    ∧ alookup (ainsert [("k", ([("default", some 2222)] : Snapshot))] "k"
          [("default", some 2222)]) "k"
        = some ([("default", some 2222)] : Snapshot) :=
  parse_cache_read [("k", [("default", some 2222)])] "k" [("default", some 2222)]
    true demoWorld 22 emptySink rfl

/-- Claim C7: every guest of a snapshot handed to `populate` (on a fresh
sink) is a host of `vagrant_machines` and of exactly one of `running`
and `not_running`; a guest with a recorded port goes to `running` and
gets `ansible_port` set to that port, a guest without goes to
`not_running`. -/
theorem populate_partition (results : Snapshot) (hnd : (results.map Prod.fst).Nodup)
    (m : String) (v : Option Int) (hmem : (m, v) ∈ results) :
    (m, "vagrant_machines") ∈ (populate emptySink results).hosts
    ∧ (∀ p : Int, v = some p →
        (m, "running") ∈ (populate emptySink results).hosts
        ∧ (m, "not_running") ∉ (populate emptySink results).hosts
        ∧ lookupVar (populate emptySink results) m "ansible_port" = some (.int p))
    ∧ (v = none →
        (m, "not_running") ∈ (populate emptySink results).hosts
        ∧ (m, "running") ∉ (populate emptySink results).hosts) := by
  refine ⟨?_, ?_, ?_⟩
  · rw [mem_hosts_populate]
    exact Or.inr ⟨(m, v), hmem, Or.inl rfl⟩
  · rintro p rfl
    refine ⟨?_, ?_, ?_⟩
    · rw [mem_hosts_populate]
      exact Or.inr ⟨(m, some p), hmem, Or.inr (Or.inl ⟨by simp, rfl⟩)⟩
    · rw [mem_hosts_populate]
      rintro (h | ⟨e, he, h | h | h⟩)
      · simp [emptySink] at h
      · exact absurd (show "not_running" = "vagrant_machines" from congrArg Prod.snd h)
          (by decide)
      · exact absurd (show "not_running" = "running" from congrArg Prod.snd h.2) (by decide)
      · have h1 : e.1 = m := (congrArg Prod.fst h.2).symm
        have he' : (m, e.2) ∈ results := by
          rw [← h1]
          exact he
        have := nodup_keys_val_unique results hnd m (some p) e.2 hmem he'
        rw [← this] at h
        exact Option.noConfusion h.1
    · simp only [populate, lookupVar]
      exact lookupVar_foldl_port _ _ _ _ hnd hmem
  · rintro rfl
    refine ⟨?_, ?_⟩
    · rw [mem_hosts_populate]
      exact Or.inr ⟨(m, none), hmem, Or.inr (Or.inr ⟨rfl, rfl⟩)⟩
    · rw [mem_hosts_populate]
      rintro (h | ⟨e, he, h | h | h⟩)
      · simp [emptySink] at h
      · exact absurd (show "running" = "vagrant_machines" from congrArg Prod.snd h) (by decide)
      · have h1 : e.1 = m := (congrArg Prod.fst h.2).symm
        have he' : (m, e.2) ∈ results := by
          rw [← h1]
          exact he
        have := nodup_keys_val_unique results hnd m none e.2 hmem he'
        exact h.1 this.symm
      · exact absurd (show "running" = "not_running" from congrArg Prod.snd h.2) (by decide)

/-- Witness for C7 on a two-guest snapshot. -/
theorem populate_partition_witness :
    ("default", "vagrant_machines")
        ∈ (populate emptySink [("default", some 2222), ("web", none)]).hosts
    ∧ (∀ p : Int, (some 2222 : Option Int) = some p →
        ("default", "running") ∈ (populate emptySink [("default", some 2222), ("web", none)]).hosts
        ∧ ("default", "not_running")
            ∉ (populate emptySink [("default", some 2222), ("web", none)]).hosts
        ∧ lookupVar (populate emptySink [("default", some 2222), ("web", none)])
            "default" "ansible_port" = some (.int p))
    ∧ ((some 2222 : Option Int) = none →
        ("default", "not_running")
            ∈ (populate emptySink [("default", some 2222), ("web", none)]).hosts
        ∧ ("default", "running")
            ∉ (populate emptySink [("default", some 2222), ("web", none)]).hosts) :=
  populate_partition [("default", some 2222), ("web", none)] (by decide)
    "default" (some 2222) (by decide)

/-- `add_group` on a group already present leaves the sink unchanged. -/
theorem addGroup_of_mem (s : Sink) (g : String) (h : g ∈ s.groups) :
    addGroup s g = s := by
  simp only [addGroup, addIfAbsent_of_mem _ _ h]

/-- `add_host` on a membership already present leaves the sink unchanged. -/
theorem addHost_of_mem (s : Sink) (h g : String) (hm : (h, g) ∈ s.hosts) :
    addHost s h g = s := by
  simp only [addHost, addIfAbsent_of_mem _ _ hm]

/-- `set_variable` writing the value already stored leaves the sink
unchanged. -/
theorem setVariable_of_lookup (s : Sink) (e k : String) (v : VarVal)
    (h : lookupVarList s.vars e k = some v) : setVariable s e k v = s := by
  simp only [setVariable, setVarList_of_lookup _ _ _ _ h]

/-- `populate` fixes any sink that already contains everything it would
add. -/
theorem populate_eq_self (r : Snapshot) (s : Sink)
    (hg1 : "vagrant_machines" ∈ s.groups) (hg2 : "not_running" ∈ s.groups)
    (hg3 : "running" ∈ s.groups)
    (hv1 : lookupVarList s.vars "vagrant_machines" "ansible_host" = some (.str "127.0.0.1"))
    (hv2 : lookupVarList s.vars "vagrant_machines" "ansible_user" = some (.str "vagrant"))
    (hstep : ∀ e ∈ r, populateStep s e = s) :
    populate s r = s := by
  simp only [populate]
  rw [addGroup_of_mem s _ hg1, setVariable_of_lookup s _ _ _ hv1,
    setVariable_of_lookup s _ _ _ hv2, addGroup_of_mem s _ hg2, addGroup_of_mem s _ hg3]
  exact foldl_populateStep_fixed r s hstep

/-- Claim C8: on a fresh sink, populating the same snapshot twice yields
exactly the sink obtained by populating it once (the sink's add
operations are idempotent and `set_variable` rewrites the same values). -/
theorem populate_idempotent (results : Snapshot)
    (hnd : (results.map Prod.fst).Nodup) :
    populate (populate emptySink results) results = populate emptySink results := by
  have hgroups : (populate emptySink results).groups
      = ["vagrant_machines", "not_running", "running"] := by
    simp only [populate]
    rw [foldl_populateStep_groups]
    rfl
  have hv1 : lookupVarList (populate emptySink results).vars
      "vagrant_machines" "ansible_host" = some (.str "127.0.0.1") := by
    simp only [populate]
    rw [lookupVar_foldl_of_ne_port _ _ _ _ (by decide)]
    rfl
  have hv2 : lookupVarList (populate emptySink results).vars
      "vagrant_machines" "ansible_user" = some (.str "vagrant") := by
    simp only [populate]
    rw [lookupVar_foldl_of_ne_port _ _ _ _ (by decide)]
    rfl
  refine populate_eq_self results _ ?_ ?_ ?_ hv1 hv2 ?_
  · rw [hgroups]
    simp
  · rw [hgroups]
    simp
  · rw [hgroups]
    simp
  · intro e he
    obtain ⟨m, v⟩ := e
    have hvm : (m, "vagrant_machines") ∈ (populate emptySink results).hosts := by
      rw [mem_hosts_populate]
      exact Or.inr ⟨(m, v), he, Or.inl rfl⟩
    cases v with
    | none =>
      have hnr : (m, "not_running") ∈ (populate emptySink results).hosts := by
        rw [mem_hosts_populate]
        exact Or.inr ⟨(m, none), he, Or.inr (Or.inr ⟨rfl, rfl⟩)⟩
      simp only [populateStep]
      rw [addHost_of_mem _ _ _ hvm, addHost_of_mem _ _ _ hnr]
    | some p =>
      have hrun : (m, "running") ∈ (populate emptySink results).hosts := by
        rw [mem_hosts_populate]
        exact Or.inr ⟨(m, some p), he, Or.inr (Or.inl ⟨by simp, rfl⟩)⟩
      have hport : lookupVarList (populate emptySink results).vars m "ansible_port"
          = some (.int p) := by
        simp only [populate]
        exact lookupVar_foldl_port _ _ _ _ hnd he
      simp only [populateStep]
      rw [addHost_of_mem _ _ _ hvm, addHost_of_mem _ _ _ hrun,
        setVariable_of_lookup _ _ _ _ hport]

/-- Witness for C8 on a two-guest snapshot. -/
theorem populate_idempotent_witness :
    populate (populate emptySink [("default", some 2222), ("web", none)])
        [("default", some 2222), ("web", none)]
      = populate emptySink [("default", some 2222), ("web", none)] :=
  populate_idempotent [("default", some 2222), ("web", none)] (by decide)

/-- Claim C9: on any fresh-fetch cycle (refresh forced, or cache enabled
but missing the key), either the fetch succeeds, every machine reported
by discovery has a snapshot entry (with or without a port), and the sink
is populated from that full snapshot — or the fetch's failure propagates
out of `parse` as the same error, and no populated sink is produced at
all (no partial inventory). -/
theorem parse_no_partial (user cf : Bool) (store : List (String × Snapshot)) (key : String)
    (isAbs : Bool) (w : VagrantWorld) (gp : Int) (sink0 : Sink)
    (hfresh : (user = true ∧ cf = false) ∨ (user = true ∧ cf = true ∧ alookup store key = none)) :
    (∃ S n, fetch isAbs w gp = .ok (S, n)
      ∧ parse user cf store key isAbs w gp sink0 = .ok ⟨populate sink0 S, ainsert store key S, n⟩
      ∧ ∀ lines, w.statusLines = .ok lines →
          ∀ m ∈ get_machines lines, (alookup S m).isSome = true)
    ∨ (∃ e, fetch isAbs w gp = .error e
      ∧ parse user cf store key isAbs w gp sink0 = .error e) := by
  cases hf : fetch isAbs w gp with
  | error e =>
    right
    refine ⟨e, rfl, ?_⟩
    rcases hfresh with ⟨rfl, rfl⟩ | ⟨rfl, rfl, hmiss⟩
    · simp [parse, hf]
    · simp [parse, hmiss, hf]
  | ok Sn =>
    obtain ⟨S, n⟩ := Sn
    left
    refine ⟨S, n, rfl, ?_, ?_⟩
    · rcases hfresh with ⟨rfl, rfl⟩ | ⟨rfl, rfl, hmiss⟩
      · simp [parse, hf]
      · simp [parse, hmiss, hf]
    · intro lines hlines m hm
      exact fetch_covers isAbs w gp S n hf lines hlines m hm

/-- Witness for C9: the refresh-forced cycle on the demo world. -/
theorem parse_no_partial_witness :
    (∃ S n, fetch true demoWorld 22 = .ok (S, n)
      ∧ parse true false [] "k" true demoWorld 22 emptySink
          = .ok ⟨populate emptySink S, ainsert [] "k" S, n⟩
      ∧ ∀ lines, demoWorld.statusLines = .ok lines →
          ∀ m ∈ get_machines lines, (alookup S m).isSome = true)
    ∨ (∃ e, fetch true demoWorld 22 = .error e
      ∧ parse true false [] "k" true demoWorld 22 emptySink = .error e) :=
  parse_no_partial true false [] "k" true demoWorld 22 emptySink (Or.inl ⟨rfl, rfl⟩)

end Vagrant
